import Mathlib

/-!
# Verification of the mobility-dashboard flow logic

A shallow embedding of `src/main.py` (a single-file Streamlit dashboard).
The program reads a shapefile, derives a sorted, deduplicated area-name
catalog, generates a random origin-destination (OD) edge set, and, for a
selected area, aggregates outbound/inbound flows, builds a Sankey node
list (capped at 10 other areas), renders CSV-exportable tables and an
all-areas summary table.

Modelling conventions:
* Python `dict` values built with pairwise-distinct keys are modelled as
  association lists (we prove the generator's keys are `Nodup`, so the
  list agrees with the dict).
* `random.randint(300, 3000)` is modelled by an arbitrary weight function
  `rand : α → α → Nat`; a hypothesis `300 ≤ rand a b ∧ rand a b ≤ 3000`
  mirrors `randint`'s documented contract where a claim needs it.
* `st.error` / `st.info` output is modelled as returned message lists;
  `st.stop()` as an early-return constructor of `StartupResult`.
* `pandas` sorts are modelled with `List.insertionSort`; `nlargest`
  (keep=first) is a stable descending sort followed by `take`.
  `pandas.Series.unique` keeps first occurrences (`pdUnique` below).
  A missing cell of a `DataFrame` column (NaN) is modelled as `none`.
* The float percentage column `.round(1)` is modelled in exact rational
  arithmetic; no claim depends on float rounding behaviour.
-/

namespace Mobilitet

/-- `SHAPEFIL_PATH` from `src/main.py` line 11. -/
def SHAPEFIL_PATH : String := "Shape/Delområder.shp"

/-- `NAVN_FELT` from `src/main.py` line 12. -/
def NAVN_FELT : String := "delomraden"

/-- The slice of a GeoDataFrame that the program observes: its CRS, its
column names, and the values of the name column for its rows. -/
structure GeoDataFrame where
  crs : Option String
  columns : List String
  navn_verdier : List String
deriving DecidableEq

/-- `gdf.to_crs(c)` — reprojection changes only the CRS in our model. -/
def to_crs (gdf : GeoDataFrame) (c : String) : GeoDataFrame :=
  { gdf with crs := some c }

/-- `les_shapefil` (`src/main.py` lines 23-36).  The outcome of
`gpd.read_file` is the parameter; the returned message list models the
`st.error` call of the `except` branch. -/
def les_shapefil (read_result : Except String GeoDataFrame) :
    Option GeoDataFrame × List String :=
  match read_result with
  | .ok gdf =>
      (some (if gdf.crs ≠ none ∧ gdf.crs ≠ some "EPSG:4326"
             then to_crs gdf "EPSG:4326" else gdf), [])
  | .error e => (none, ["Kunne ikke lese shapefil: " ++ e])

/-- `pandas.Series.unique`: deduplication keeping the first occurrence of
each value, in order of appearance. -/
def pdUnique {α : Type} [DecidableEq α] (l : List α) : List α :=
  l.foldl (fun acc x => if x ∈ acc then acc else acc ++ [x]) []

/-- `sorted(gdf[NAVN_FELT].unique().tolist())` (`src/main.py` line 69). -/
def omraader_liste_of (navn : List String) : List String :=
  (pdUnique navn).insertionSort (fun a b => a ≤ b)

/-- The module-level startup sequence (`src/main.py` lines 54-70): load the
shapefile, halt on read failure, halt when the name field is missing,
otherwise run with the derived area catalog. -/
inductive StartupResult where
  | stopped (meldinger : List String)
  | kjoerer (gdf : GeoDataFrame) (omraader_liste : List String)
deriving DecidableEq

/-- `src/main.py` lines 54-70 as one function of the read outcome. -/
def startup (read_result : Except String GeoDataFrame) : StartupResult :=
  match les_shapefil read_result with
  | (none, msgs) =>
      .stopped (msgs ++
        ["⚠️ Kunne ikke laste shapefil fra: " ++ SHAPEFIL_PATH,
         "Sjekk at stien er riktig og at filen eksisterer."])
  | (some gdf, msgs) =>
      if NAVN_FELT ∈ gdf.columns then
        .kjoerer gdf (omraader_liste_of gdf.navn_verdier)
      else
        .stopped (msgs ++
          ["⚠️ Finner ikke feltet " ++ NAVN_FELT ++ " i shapefilen.",
           "Tilgjengelige felt: " ++ String.intercalate ", " gdf.columns])

/-- `generer_tilfeldig_od_data` (`src/main.py` lines 39-51).  The nested
loop `for fra … for til … if fra != til` filling the dict `od_data` with
`random.randint(300, 3000)` values; `rand` stands for the stream of
random draws.  Keys are pairwise distinct when the area list is
(`generer_keys_nodup` below), so the list is the dict. -/
def generer_tilfeldig_od_data {α : Type} [DecidableEq α]
    (rand : α → α → Nat) (omraader_liste : List α) : List ((α × α) × Nat) :=
  omraader_liste.flatMap (fun fra =>
    (omraader_liste.filter (fun til => fra ≠ til)).map
      (fun til => ((fra, til), rand fra til)))

/-- The aggregation loop building `reiser_ut` (`src/main.py` lines
215-217): entries of `od_data` whose origin is the selection, kept as
(destination, weight). -/
def reiser_ut {α : Type} [DecidableEq α]
    (od_data : List ((α × α) × Nat)) (valgt : α) : List (α × Nat) :=
  (od_data.filter (fun e => e.1.1 = valgt)).map (fun e => (e.1.2, e.2))

/-- The aggregation loop building `reiser_inn` (`src/main.py` lines
215-219): entries of `od_data` whose destination is the selection, kept
as (origin, weight). -/
def reiser_inn {α : Type} [DecidableEq α]
    (od_data : List ((α × α) × Nat)) (valgt : α) : List (α × Nat) :=
  (od_data.filter (fun e => e.1.2 = valgt)).map (fun e => (e.1.1, e.2))

/-- `total_ut` (`src/main.py` line 223). -/
def total_ut {α : Type} [DecidableEq α]
    (od_data : List ((α × α) × Nat)) (valgt : α) : Nat :=
  ((reiser_ut od_data valgt).map Prod.snd).sum

/-- `total_inn` (`src/main.py` line 224). -/
def total_inn {α : Type} [DecidableEq α]
    (od_data : List ((α × α) × Nat)) (valgt : α) : Nat :=
  ((reiser_inn od_data valgt).map Prod.snd).sum

/-- The "Netto" metric `total_inn - total_ut` (`src/main.py` line 228);
Python integers are unbounded, so the value lives in `ℤ`. -/
def netto {α : Type} [DecidableEq α]
    (od_data : List ((α × α) × Nat)) (valgt : α) : ℤ :=
  (total_inn od_data valgt : ℤ) - (total_ut od_data valgt : ℤ)

/-- `MAX_ANDRE_NODER` (`src/main.py` line 235). -/
def MAX_ANDRE_NODER : Nat := 10

/-- One row of the `alle_relasjoner` DataFrame (`src/main.py` lines
238-240).  Rows coming from `reiser_ut` populate `til`, rows from
`reiser_inn` populate `fra`; the absent cell is NaN, modelled `none`. -/
structure Relasjon (α : Type) where
  til : Option α
  fra : Option α
  antall : Nat
deriving DecidableEq

/-- `alle_relasjoner = reiser_ut + reiser_inn` (`src/main.py` line 238),
as the rows of `pd.DataFrame(alle_relasjoner)`. -/
def alle_relasjoner {α : Type} (ut inn : List (α × Nat)) : List (Relasjon α) :=
  ut.map (fun r => ⟨some r.1, none, r.2⟩) ++
    inn.map (fun r => ⟨none, some r.1, r.2⟩)

/-- Descending order on the `antall` column of `Relasjon` rows. -/
def antall_desc_rel {α : Type} (a b : Relasjon α) : Prop :=
  b.antall ≤ a.antall

instance {α : Type} : DecidableRel (antall_desc_rel (α := α)) :=
  fun a b => inferInstanceAs (Decidable (b.antall ≤ a.antall))

/-- `df_rel.nlargest(MAX_ANDRE_NODER, 'antall')['til'].unique().tolist()`
(`src/main.py` line 242).  `nlargest` with the default `keep='first'` is
a stable descending sort followed by taking the first rows. -/
def nlargest_til {α : Type} [DecidableEq α]
    (rel : List (Relasjon α)) : List (Option α) :=
  pdUnique (((rel.insertionSort antall_desc_rel).take MAX_ANDRE_NODER).map
    Relasjon.til)

/-- `df_rel.nlargest(MAX_ANDRE_NODER, 'antall')['fra'].unique().tolist()`
(`src/main.py` line 244). -/
def nlargest_fra {α : Type} [DecidableEq α]
    (rel : List (Relasjon α)) : List (Option α) :=
  pdUnique (((rel.insertionSort antall_desc_rel).take MAX_ANDRE_NODER).map
    Relasjon.fra)

/-- `top_omraader` (`src/main.py` lines 241-244).  The DataFrame built from
`reiser_ut + reiser_inn` has a `'til'` column exactly when `reiser_ut` is
nonempty, so `if 'til' in df_rel.columns` is the nonemptiness test. -/
def top_omraader {α : Type} [DecidableEq α]
    (ut inn : List (α × Nat)) : List (Option α) :=
  if ut ≠ [] then nlargest_til (alle_relasjoner ut inn)
  else nlargest_fra (alle_relasjoner ut inn)

/-- `andre = [o for o in omraader_liste if o != valgt]`
(`src/main.py` line 232). -/
def andre_of {α : Type} [DecidableEq α]
    (omraader_liste : List α) (valgt : α) : List α :=
  omraader_liste.filter (fun o => o ≠ valgt)

/-- The final value of `andre` after the `MAX_ANDRE_NODER` branch
(`src/main.py` lines 232-245), parameterised by the aggregated lists. -/
def andre_final {α : Type} [DecidableEq α]
    (omraader_liste : List α) (valgt : α) (ut inn : List (α × Nat)) :
    List α :=
  let andre := andre_of omraader_liste valgt
  if MAX_ANDRE_NODER < andre.length then
    if alle_relasjoner ut inn ≠ [] then
      (andre.filter (fun o => some o ∈ top_omraader ut inn)).take
        MAX_ANDRE_NODER
    else andre
  else andre

/-- `alle_noder = [valgt] ++ andre` (`src/main.py` lines 231, 247). -/
def alle_noder {α : Type} [DecidableEq α]
    (omraader_liste : List α) (valgt : α) (ut inn : List (α × Nat)) :
    List α :=
  valgt :: andre_final omraader_liste valgt ut inn

/-- `node_dict = {node: idx for idx, node in enumerate(alle_noder)}`
(`src/main.py` line 248).  Later bindings overwrite earlier ones, as in a
Python dict comprehension; lookup of an absent key is `none`. -/
def node_dict {α : Type} [DecidableEq α] (noder : List α) :
    α → Option Nat :=
  noder.enum.foldl
    (fun d p => fun x => if x = p.2 then some p.1 else d x)
    (fun _ => none)

/-- Descending order on the weight of (name, weight) rows. -/
def antall_desc {α : Type} (a b : α × Nat) : Prop := b.2 ≤ a.2

instance {α : Type} : DecidableRel (antall_desc (α := α)) :=
  fun a b => inferInstanceAs (Decidable (b.2 ≤ a.2))

instance {α : Type} : IsTotal (α × Nat) (antall_desc (α := α)) :=
  ⟨fun a b => Nat.le_total b.2 a.2⟩

instance {α : Type} : IsTrans (α × Nat) (antall_desc (α := α)) :=
  ⟨fun _ _ _ h1 h2 => le_trans h2 h1⟩

/-- `.round(1)` of the percentage column, in exact rational arithmetic. -/
def runde1 (x : ℚ) : ℚ := (round (10 * x) : ℤ) / 10

/-- `df_ut` with its `andel` column (`src/main.py` lines 309-310):
`pd.DataFrame(reiser_ut).sort_values('antall', ascending=False)` and
`andel = (antall / antall.sum() * 100).round(1)`.  The possibly unstable
pandas quicksort is modelled by a sort; every property proved below is
independent of the order among equal weights. -/
def df_ut {α : Type} [DecidableEq α] (reiser : List (α × Nat)) :
    List (α × Nat × ℚ) :=
  let sortert := reiser.insertionSort antall_desc
  let total := (reiser.map Prod.snd).sum
  sortert.map (fun r => (r.1, r.2, runde1 ((r.2 : ℚ) / (total : ℚ) * 100)))

/-- `df_inn` (`src/main.py` lines 334-335), same construction as `df_ut`
applied to `reiser_inn`. -/
def df_inn {α : Type} [DecidableEq α] (reiser : List (α × Nat)) :
    List (α × Nat × ℚ) :=
  let sortert := reiser.insertionSort antall_desc
  let total := (reiser.map Prod.snd).sum
  sortert.map (fun r => (r.1, r.2, runde1 ((r.2 : ℚ) / (total : ℚ) * 100)))

/-- Descending order on (name, weight, percentage) rows by weight; the
order in which `df_ut` / `df_inn` rows are displayed and exported. -/
def rad_desc {α : Type} (a b : α × Nat × ℚ) : Prop := b.2.1 ≤ a.2.1

/-- One row of the `omraade_stats` summary table
(`src/main.py` lines 361-371). -/
structure OmraadeStat (α : Type) where
  omraade : α
  ut : Nat
  inn : Nat
  totalt : Nat
  netto : ℤ
deriving DecidableEq

/-- The `omraade_stats` loop (`src/main.py` lines 361-371): per area, the
directly recomputed outbound/inbound sums over `od_data`, their total,
and the (possibly negative) net. -/
def omraade_stats {α : Type} [DecidableEq α]
    (od_data : List ((α × α) × Nat)) (omraader_liste : List α) :
    List (OmraadeStat α) :=
  omraader_liste.map (fun omraade =>
    let ut := ((od_data.filter (fun e => e.1.1 = omraade)).map Prod.snd).sum
    let inn := ((od_data.filter (fun e => e.1.2 = omraade)).map Prod.snd).sum
    { omraade := omraade, ut := ut, inn := inn, totalt := ut + inn,
      netto := (inn : ℤ) - (ut : ℤ) })

/-- Descending order on the `Totalt` column. -/
def totalt_desc {α : Type} (a b : OmraadeStat α) : Prop :=
  b.totalt ≤ a.totalt

instance {α : Type} : DecidableRel (totalt_desc (α := α)) :=
  fun a b => inferInstanceAs (Decidable (b.totalt ≤ a.totalt))

/-- `df_stats = pd.DataFrame(omraade_stats).sort_values('Totalt',
ascending=False)` (`src/main.py` line 373). -/
def df_stats {α : Type} [DecidableEq α]
    (od_data : List ((α × α) × Nat)) (omraader_liste : List α) :
    List (OmraadeStat α) :=
  (omraade_stats od_data omraader_liste).insertionSort totalt_desc

/-- A user interaction that can change the selection: the sidebar
selectbox (`src/main.py` lines 94-99) or a click on a map polygon
(`src/main.py` lines 199-206). -/
inductive Hendelse (α : Type) where
  | velg (o : α)
  | klikk (o : α)

/-- Which events the UI can actually deliver: the selectbox only offers
members of `omraader_liste`; a click's `customdata` carries the name field
of some shapefile row (`src/main.py` lines 123-155). -/
def gyldig {α : Type} [DecidableEq α] (omraader kart_navn : List α) :
    Hendelse α → Prop
  | .velg o => o ∈ omraader
  | .klikk o => o ∈ kart_navn

/-- The click handler (`src/main.py` lines 199-206): reassign only when
the clicked name differs from the current selection. -/
def klikk_oppdater {α : Type} [DecidableEq α] (valgt o : α) : α :=
  if o ≠ valgt then o else valgt

/-- One interaction step on the session's `valgt_omraade`. -/
def step {α : Type} [DecidableEq α] (valgt : α) : Hendelse α → α
  | .velg o => o
  | .klikk o => klikk_oppdater valgt o

/-- A whole session: the initial selection followed by a trace of
interactions. -/
def kjoer {α : Type} [DecidableEq α] (start : α) (hs : List (Hendelse α)) :
    α :=
  hs.foldl step start

/-- The failing input exhibited for **C1**: twelve areas, selection `0`,
every outbound weight `300`, every other weight `3000` — all of them
inside `randint(300, 3000)`'s range. -/
def omraaderC1 : List Nat := [0, 1, 2, 3, 4, 5, 6, 7, 8, 9, 10, 11]

/-- The weight assignment of the failing input for **C1**. -/
def randC1 : Nat → Nat → Nat := fun fra _ => if fra = 0 then 300 else 3000

/-! ## Helper lemmas -/

lemma sum_map_const_nat {α : Type} (l : List α) (c : Nat) :
    (l.map (fun _ => c)).sum = l.length * c := by
  induction l with
  | nil => simp
  | cons x t ih =>
      simp only [List.map_cons, List.sum_cons, List.length_cons, ih]
      ring

lemma sum_map_intsub {α : Type} (l : List α) (f g : α → Nat) :
    (l.map (fun o => (f o : ℤ) - (g o : ℤ))).sum
      = ((l.map f).sum : ℤ) - ((l.map g).sum : ℤ) := by
  induction l with
  | nil => simp
  | cons x t ih =>
      simp only [List.map_cons, List.sum_cons, ih]
      push_cast
      ring

lemma snd_mem_of_mem_enumFrom {α : Type} {l : List α} :
    ∀ {n : Nat} {p : Nat × α}, p ∈ l.enumFrom n → p.2 ∈ l := by
  induction l with
  | nil => intro n p h; cases h
  | cons b t ih =>
      intro n p h
      rcases List.mem_cons.mp h with rfl | h2
      · exact List.mem_cons_self _ _
      · exact List.mem_cons_of_mem _ (ih h2)

lemma headI_mem_of_ne_nil {α : Type} [Inhabited α] {l : List α}
    (h : l ≠ []) : l.headI ∈ l := by
  cases l with
  | nil => exact absurd rfl h
  | cons a t => exact List.mem_cons_self a t

lemma alle_relasjoner_ne_nil {α : Type} {ut inn : List (α × Nat)}
    (h : ut ≠ []) : alle_relasjoner ut inn ≠ [] := by
  unfold alle_relasjoner
  intro hc
  rw [List.append_eq_nil] at hc
  exact h (List.map_eq_nil_iff.mp hc.1)

section Hjelpelemmaer

variable {α : Type} [DecidableEq α]

lemma mem_pdUnique_foldl (l : List α) :
    ∀ (acc : List α) (a : α),
      (a ∈ l.foldl (fun acc x => if x ∈ acc then acc else acc ++ [x]) acc)
        ↔ a ∈ acc ∨ a ∈ l := by
  induction l with
  | nil => simp
  | cons x xs ih =>
      intro acc a
      simp only [List.foldl_cons]
      rw [ih]
      by_cases hx : x ∈ acc
      · simp only [if_pos hx, List.mem_cons]
        constructor
        · rintro (h | h)
          · exact Or.inl h
          · exact Or.inr (Or.inr h)
        · rintro (h | rfl | h)
          · exact Or.inl h
          · exact Or.inl hx
          · exact Or.inr h
      · simp only [if_neg hx, List.mem_append, List.mem_singleton,
          List.mem_cons]
        tauto

lemma mem_pdUnique {l : List α} {a : α} : a ∈ pdUnique l ↔ a ∈ l := by
  unfold pdUnique
  rw [mem_pdUnique_foldl]
  simp

lemma nodup_pdUnique_foldl (l : List α) :
    ∀ acc : List α, acc.Nodup →
      (l.foldl (fun acc x => if x ∈ acc then acc else acc ++ [x]) acc).Nodup := by
  induction l with
  | nil => intro acc h; simpa using h
  | cons x xs ih =>
      intro acc hacc
      simp only [List.foldl_cons]
      apply ih
      by_cases hx : x ∈ acc
      · simpa [hx] using hacc
      · simp [hx, List.nodup_append, hacc]

lemma nodup_pdUnique (l : List α) : (pdUnique l).Nodup :=
  nodup_pdUnique_foldl l [] List.nodup_nil

lemma mem_generer {rand : α → α → Nat} {l : List α} {e : (α × α) × Nat} :
    e ∈ generer_tilfeldig_od_data rand l ↔
      ∃ fra til, fra ∈ l ∧ til ∈ l ∧ fra ≠ til ∧
        e = ((fra, til), rand fra til) := by
  simp only [generer_tilfeldig_od_data, List.mem_flatMap, List.mem_map,
    List.mem_filter, decide_eq_true_eq]
  constructor
  · rintro ⟨fra, hfra, til, ⟨htil, hne⟩, rfl⟩
    exact ⟨fra, til, hfra, htil, hne, rfl⟩
  · rintro ⟨fra, til, hfra, htil, hne, rfl⟩
    exact ⟨fra, hfra, til, ⟨htil, hne⟩, rfl⟩

lemma generer_mem_self {rand : α → α → Nat} {l : List α} {fra til : α}
    (hfra : fra ∈ l) (htil : til ∈ l) (hne : fra ≠ til) :
    ((fra, til), rand fra til) ∈ generer_tilfeldig_od_data rand l :=
  mem_generer.mpr ⟨fra, til, hfra, htil, hne, rfl⟩

lemma generer_fst_mem {rand : α → α → Nat} {areas : List α} :
    ∀ e ∈ generer_tilfeldig_od_data rand areas, e.1.1 ∈ areas := by
  intro e he
  obtain ⟨fra, til, hfra, _, _, rfl⟩ := mem_generer.mp he
  exact hfra

lemma generer_snd_mem {rand : α → α → Nat} {areas : List α} :
    ∀ e ∈ generer_tilfeldig_od_data rand areas, e.1.2 ∈ areas := by
  intro e he
  obtain ⟨fra, til, _, htil, _, rfl⟩ := mem_generer.mp he
  exact htil

lemma generer_keys_nodup (rand : α → α → Nat) (l : List α) (hl : l.Nodup) :
    ((generer_tilfeldig_od_data rand l).map Prod.fst).Nodup := by
  unfold generer_tilfeldig_od_data
  rw [List.map_flatMap]
  rw [List.nodup_flatMap]
  constructor
  · intro fra _
    rw [List.map_map]
    have hcomp : (Prod.fst ∘ fun til => ((fra, til), rand fra til))
        = fun til => (fra, til) := rfl
    rw [hcomp]
    exact (hl.filter _).map (fun a b hab => (Prod.mk.injEq .. ▸ hab).2)
  · refine hl.imp ?_
    intro a b hab
    intro x hx1 hx2
    simp only [List.map_map, List.mem_map, List.mem_filter,
      Function.comp] at hx1 hx2
    obtain ⟨t1, _, rfl⟩ := hx1
    obtain ⟨t2, _, hx⟩ := hx2
    exact hab (Prod.mk.injEq .. ▸ hx.symm).1

lemma filter_ne_eq_self {l : List α} {a : α} (h : a ∉ l) :
    l.filter (fun x => x ≠ a) = l := by
  apply List.filter_eq_self.mpr
  intro x hx
  simp only [ne_eq, decide_eq_true_eq]
  intro hxa
  exact h (hxa ▸ hx)

lemma length_filter_ne_of_nodup {l : List α} {a : α}
    (hl : l.Nodup) (ha : a ∈ l) :
    (l.filter (fun x => x ≠ a)).length = l.length - 1 := by
  induction l with
  | nil => cases ha
  | cons b t ih =>
      obtain ⟨hbt, htn⟩ := List.nodup_cons.mp hl
      rcases List.mem_cons.mp ha with rfl | hat
      · rw [List.filter_cons_of_neg (by simp)]
        rw [filter_ne_eq_self hbt]
        simp
      · have hba : (b ≠ a) := fun h => hbt (h ▸ hat)
        rw [List.filter_cons_of_pos (by simpa using hba)]
        have ht1 : 1 ≤ t.length := List.length_pos.mpr (List.ne_nil_of_mem hat)
        have := ih htn hat
        simp only [List.length_cons]
        omega

lemma length_filter_ne_le {l : List α} {a : α} (ha : a ∈ l) :
    (l.filter (fun x => x ≠ a)).length ≤ l.length - 1 := by
  induction l with
  | nil => cases ha
  | cons b t ih =>
      by_cases hba : b = a
      · subst hba
        rw [List.filter_cons_of_neg (by simp)]
        have := List.length_filter_le (fun x => x ≠ b) t
        simp only [List.length_cons]
        omega
      · have hat : a ∈ t := by
          rcases List.mem_cons.mp ha with rfl | h
          · exact absurd rfl hba
          · exact h
        have ht1 : 1 ≤ t.length := List.length_pos.mpr (List.ne_nil_of_mem hat)
        rw [List.filter_cons_of_pos (by simpa using hba)]
        have := ih hat
        simp only [List.length_cons]
        omega

lemma mem_reiser_ut {od : List ((α × α) × Nat)} {s t : α} {a : Nat} :
    (t, a) ∈ reiser_ut od s ↔ ((s, t), a) ∈ od := by
  simp only [reiser_ut, List.mem_map, List.mem_filter, decide_eq_true_eq]
  constructor
  · rintro ⟨⟨⟨f1, t1⟩, a1⟩, ⟨hmem, hf⟩, heq⟩
    simp only [Prod.mk.injEq] at hf heq
    obtain ⟨rfl, rfl⟩ := heq
    subst hf
    exact hmem
  · intro h
    exact ⟨((s, t), a), ⟨h, rfl⟩, rfl⟩

lemma mem_reiser_inn {od : List ((α × α) × Nat)} {s f : α} {a : Nat} :
    (f, a) ∈ reiser_inn od s ↔ ((f, s), a) ∈ od := by
  simp only [reiser_inn, List.mem_map, List.mem_filter, decide_eq_true_eq]
  constructor
  · rintro ⟨⟨⟨f1, t1⟩, a1⟩, ⟨hmem, ht⟩, heq⟩
    simp only [Prod.mk.injEq] at ht heq
    obtain ⟨rfl, rfl⟩ := heq
    subst ht
    exact hmem
  · intro h
    exact ⟨((f, s), a), ⟨h, rfl⟩, rfl⟩

lemma node_dict_foldl (ps : List (Nat × α)) (d : α → Option Nat) (x : α)
    (hd : d x = some 0) (hps : ∀ p ∈ ps, p.2 ≠ x) :
    (ps.foldl (fun d p => fun y => if y = p.2 then some p.1 else d y) d) x
      = some 0 := by
  induction ps generalizing d with
  | nil => exact hd
  | cons p ps ih =>
      rw [List.foldl_cons]
      apply ih
      · have hpx : p.2 ≠ x := hps p (List.mem_cons_self p ps)
        have hxp : ¬(x = p.2) := fun h => hpx (Eq.symm h)
        simp only [if_neg hxp]
        exact hd
      · intro q hq
        exact hps q (List.mem_cons_of_mem _ hq)

lemma node_dict_cons_self (x : α) (l : List α) (h : ∀ a ∈ l, a ≠ x) :
    node_dict (x :: l) x = some 0 := by
  unfold node_dict
  rw [List.enum_cons, List.foldl_cons]
  apply node_dict_foldl
  · simp
  · intro p hp
    exact h p.2 (snd_mem_of_mem_enumFrom hp)

lemma total_ut_cons {e : (α × α) × Nat} {od : List ((α × α) × Nat)} {s : α} :
    total_ut (e :: od) s = (if e.1.1 = s then e.2 else 0) + total_ut od s := by
  by_cases h : e.1.1 = s <;>
    simp [total_ut, reiser_ut, List.filter_cons, h]

lemma total_inn_cons {e : (α × α) × Nat} {od : List ((α × α) × Nat)} {s : α} :
    total_inn (e :: od) s = (if e.1.2 = s then e.2 else 0) + total_inn od s := by
  by_cases h : e.1.2 = s <;>
    simp [total_inn, reiser_inn, List.filter_cons, h]

lemma total_split (od : List ((α × α) × Nat)) (s : α)
    (h : ∀ e ∈ od, ¬(e.1.1 = s ∧ e.1.2 = s)) :
    total_ut od s + total_inn od s
      = ((od.filter (fun e => e.1.1 = s ∨ e.1.2 = s)).map Prod.snd).sum := by
  induction od with
  | nil => simp [total_ut, total_inn, reiser_ut, reiser_inn]
  | cons e od ih =>
      have hrest := ih (fun x hx => h x (List.mem_cons_of_mem _ hx))
      have he := h e (List.mem_cons_self _ _)
      rw [total_ut_cons, total_inn_cons]
      by_cases h1 : e.1.1 = s <;> by_cases h2 : e.1.2 = s
      · exact absurd ⟨h1, h2⟩ he
      · rw [List.filter_cons_of_pos (by simp [h1])]
        simp only [List.map_cons, List.sum_cons, if_pos h1, if_neg h2]
        omega
      · rw [List.filter_cons_of_pos (by simp [h2])]
        simp only [List.map_cons, List.sum_cons, if_neg h1, if_pos h2]
        omega
      · rw [List.filter_cons_of_neg (by simp [h1, h2])]
        simp only [if_neg h1, if_neg h2]
        omega

lemma sum_ite_eq_single {l : List α} {a : α} (hl : l.Nodup) (ha : a ∈ l)
    (w : Nat) :
    (l.map (fun o => if a = o then w else 0)).sum = w := by
  induction l with
  | nil => cases ha
  | cons b t ih =>
      obtain ⟨hbt, htn⟩ := List.nodup_cons.mp hl
      rcases List.mem_cons.mp ha with rfl | hat
      · have hz : (t.map (fun o => if a = o then w else 0)).sum = 0 := by
          apply List.sum_eq_zero
          intro x hx
          simp only [List.mem_map] at hx
          obtain ⟨o, ho, rfl⟩ := hx
          have hao : ¬(a = o) := by
            intro h
            subst h
            exact hbt ho
          rw [if_neg hao]
        simp [hz]
      · have hab : a ≠ b := by
          intro h
          subst h
          exact hbt hat
        simp only [List.map_cons, List.sum_cons, if_neg hab, Nat.zero_add]
        exact ih htn hat

lemma sum_filter_key (k : ((α × α) × Nat) → α)
    (od : List ((α × α) × Nat)) (l : List α) (hl : l.Nodup)
    (hk : ∀ e ∈ od, k e ∈ l) :
    (l.map (fun o => ((od.filter (fun e => k e = o)).map Prod.snd).sum)).sum
      = (od.map Prod.snd).sum := by
  induction od with
  | nil => simp
  | cons e od ih =>
      have he : k e ∈ l := hk e (List.mem_cons_self _ _)
      have hrest : ∀ x ∈ od, k x ∈ l :=
        fun x hx => hk x (List.mem_cons_of_mem _ hx)
      have hsplit : ∀ o : α,
          ((List.filter (fun x => k x = o) (e :: od)).map Prod.snd).sum
            = (if k e = o then e.2 else 0)
              + ((od.filter (fun x => k x = o)).map Prod.snd).sum := by
        intro o
        by_cases h : k e = o <;> simp [List.filter_cons, h]
      simp only [hsplit]
      rw [List.sum_map_add, ih hrest, sum_ite_eq_single hl he]
      simp

lemma ne_of_mem_andre_of {l : List α} {valgt a : α}
    (h : a ∈ andre_of l valgt) : a ≠ valgt := by
  simp only [andre_of, List.mem_filter, decide_eq_true_eq] at h
  exact h.2

lemma andre_final_eq (l : List α) (valgt : α) (ut inn : List (α × Nat)) :
    andre_final l valgt ut inn =
      if MAX_ANDRE_NODER < (andre_of l valgt).length then
        if alle_relasjoner ut inn ≠ [] then
          ((andre_of l valgt).filter
            (fun o => some o ∈ top_omraader ut inn)).take MAX_ANDRE_NODER
        else andre_of l valgt
      else andre_of l valgt := rfl

lemma andre_final_subset (l : List α) (valgt : α) (ut inn : List (α × Nat)) :
    andre_final l valgt ut inn ⊆ andre_of l valgt := by
  rw [andre_final_eq]
  by_cases hlen : MAX_ANDRE_NODER < (andre_of l valgt).length
  · by_cases hrel : alle_relasjoner ut inn ≠ []
    · rw [if_pos hlen, if_pos hrel]
      intro a ha
      exact List.mem_of_mem_filter (List.take_subset _ _ ha)
    · rw [if_pos hlen, if_neg hrel]
      exact List.Subset.refl _
  · rw [if_neg hlen]
    exact List.Subset.refl _

lemma reiser_ut_generer_ne_nil (rand : α → α → Nat) (l : List α) (valgt : α)
    (hv : valgt ∈ l) (h : 0 < (andre_of l valgt).length) :
    reiser_ut (generer_tilfeldig_od_data rand l) valgt ≠ [] := by
  obtain ⟨o, ho⟩ := List.exists_mem_of_length_pos h
  have hol : o ∈ l := (List.mem_filter.mp ho).1
  have hno : o ≠ valgt := ne_of_mem_andre_of ho
  exact List.ne_nil_of_mem
    (mem_reiser_ut.mpr (generer_mem_self hv hol (Ne.symm hno)))

lemma andre_final_eq_of_small {l : List α} {valgt : α}
    {ut inn : List (α × Nat)}
    (hlen : ¬ MAX_ANDRE_NODER < (andre_of l valgt).length) :
    andre_final l valgt ut inn = andre_of l valgt := by
  rw [andre_final_eq, if_neg hlen]

lemma length_andre_final_le (l : List α) (valgt : α) (ut inn : List (α × Nat))
    (hv : valgt ∈ l)
    (hut : MAX_ANDRE_NODER < (andre_of l valgt).length → ut ≠ []) :
    (andre_final l valgt ut inn).length
      ≤ min MAX_ANDRE_NODER (l.length - 1) := by
  have hle : (andre_of l valgt).length ≤ l.length - 1 :=
    length_filter_ne_le hv
  by_cases hlen : MAX_ANDRE_NODER < (andre_of l valgt).length
  · have hrel : alle_relasjoner ut inn ≠ [] :=
      alle_relasjoner_ne_nil (hut hlen)
    rw [andre_final_eq, if_pos hlen, if_pos hrel]
    have h1 : (((andre_of l valgt).filter
        (fun o => some o ∈ top_omraader ut inn)).take MAX_ANDRE_NODER).length
          ≤ MAX_ANDRE_NODER := List.length_take_le _ _
    exact le_min h1 (by omega)
  · rw [andre_final_eq_of_small hlen]
    exact le_min (by omega) hle

lemma df_inn_eq_df_ut (v : List (α × Nat)) : df_inn v = df_ut v := rfl

lemma df_ut_proj_perm (v : List (α × Nat)) :
    ((df_ut v).map (fun r => (r.1, r.2.1))).Perm v := by
  simp only [df_ut]
  rw [List.map_map]
  have hfun : ((fun (r : α × Nat × ℚ) => (r.1, r.2.1)) ∘
      (fun (r : α × Nat) =>
        (r.1, r.2, runde1 ((r.2 : ℚ) / (((v.map Prod.snd).sum : Nat) : ℚ) * 100))))
      = id := by
    funext r
    rfl
  rw [hfun, List.map_id]
  exact List.perm_insertionSort antall_desc v

lemma df_ut_sorted (v : List (α × Nat)) :
    List.Sorted rad_desc (df_ut v) := by
  simp only [df_ut]
  apply List.Pairwise.map
  · intro a b hab
    exact hab
  · exact List.sorted_insertionSort antall_desc v

lemma df_ut_sum (v : List (α × Nat)) :
    ((df_ut v).map (fun r => r.2.1)).sum = (v.map Prod.snd).sum := by
  simp only [df_ut]
  rw [List.map_map]
  have hfun : ((fun (r : α × Nat × ℚ) => r.2.1) ∘
      (fun (r : α × Nat) =>
        (r.1, r.2, runde1 ((r.2 : ℚ) / (((v.map Prod.snd).sum : Nat) : ℚ) * 100))))
      = Prod.snd := by
    funext r
    rfl
  rw [hfun]
  exact ((List.perm_insertionSort antall_desc v).map Prod.snd).sum_eq

lemma omraade_stats_map_ut (od : List ((α × α) × Nat)) (l : List α) :
    (omraade_stats od l).map OmraadeStat.ut
      = l.map (fun o => ((od.filter (fun e => e.1.1 = o)).map Prod.snd).sum) := by
  simp only [omraade_stats]
  rw [List.map_map]
  rfl

lemma omraade_stats_map_inn (od : List ((α × α) × Nat)) (l : List α) :
    (omraade_stats od l).map OmraadeStat.inn
      = l.map (fun o => ((od.filter (fun e => e.1.2 = o)).map Prod.snd).sum) := by
  simp only [omraade_stats]
  rw [List.map_map]
  rfl

lemma omraade_stats_map_netto (od : List ((α × α) × Nat)) (l : List α) :
    (omraade_stats od l).map OmraadeStat.netto
      = l.map (fun o =>
          ((((od.filter (fun e => e.1.2 = o)).map Prod.snd).sum : Nat) : ℤ)
            - ((((od.filter (fun e => e.1.1 = o)).map Prod.snd).sum : Nat) : ℤ)) := by
  simp only [omraade_stats]
  rw [List.map_map]
  rfl

lemma kjoer_mem (l kart : List α) (hsub : ∀ x ∈ kart, x ∈ l)
    (start : α) (hstart : start ∈ l) (hs : List (Hendelse α))
    (hg : ∀ ev ∈ hs, gyldig l kart ev) :
    kjoer start hs ∈ l := by
  induction hs generalizing start with
  | nil => exact hstart
  | cons ev evs ih =>
      have hstep : step start ev ∈ l := by
        cases ev with
        | velg o => exact hg _ (List.mem_cons_self _ _)
        | klikk o =>
            have ho : o ∈ kart := hg _ (List.mem_cons_self _ _)
            simp only [step, klikk_oppdater]
            split
            · exact hsub o ho
            · exact hstart
      exact ih (step start ev) hstep
        (fun e he => hg e (List.mem_cons_of_mem _ he))

end Hjelpelemmaer

lemma mem_omraader_liste_of {navn : List String} {x : String} :
    x ∈ omraader_liste_of navn ↔ x ∈ navn := by
  unfold omraader_liste_of
  rw [(List.perm_insertionSort _ _).mem_iff]
  exact mem_pdUnique

lemma nodup_omraader_liste_of (navn : List String) :
    (omraader_liste_of navn).Nodup := by
  unfold omraader_liste_of
  exact (List.perm_insertionSort _ _).nodup_iff.mpr (nodup_pdUnique navn)

/-! ## Claim theorems -/

/-- **C1** (the code evaluated at a failing input).  The claim says that
with `n - 1 > K = 10` other areas, exactly `K` other-area nodes are
chosen — the `K` areas with the largest single edge weight across the
union of the outbound and inbound lists.  On this input (twelve areas,
selection `0`, outbound weights `300`, all other weights `3000`, all
within `randint`'s range) the ten heaviest rows of the concatenated
outbound+inbound frame are all inbound rows, whose `'til'` cells are
NaN, so `top_omraader` evaluates to `[none]` and zero other-area nodes
are chosen: the node list is just `[0]`. -/
theorem C1_top_k_filter_code_eval :
    (∀ a ∈ omraaderC1, ∀ b ∈ omraaderC1,
      300 ≤ randC1 a b ∧ randC1 a b ≤ 3000) ∧
    omraaderC1.Nodup ∧
    MAX_ANDRE_NODER < (andre_of omraaderC1 0).length ∧
    top_omraader (reiser_ut (generer_tilfeldig_od_data randC1 omraaderC1) 0)
        (reiser_inn (generer_tilfeldig_od_data randC1 omraaderC1) 0)
      = [none] ∧
    alle_noder omraaderC1 0
        (reiser_ut (generer_tilfeldig_od_data randC1 omraaderC1) 0)
        (reiser_inn (generer_tilfeldig_od_data randC1 omraaderC1) 0)
      = [0] :=
  ⟨by decide, by decide, by decide, by decide, by decide⟩

/-- **C2.** For every duplicate-free area list of size `n ≥ 2` and every
execution of `random.randint` (any in-range weight assignment), the Flow
Generator produces exactly `n * (n - 1)` edges, every weight lies in
`[300, 3000]`, no edge is a self-loop — and the dict keys are pairwise
distinct, so the association-list model coincides with the Python dict. -/
theorem C2_flow_generator {α : Type} [DecidableEq α] (rand : α → α → Nat)
    (areas : List α) (hn : areas.Nodup) (_h2 : 2 ≤ areas.length)
    (hr : ∀ a b, 300 ≤ rand a b ∧ rand a b ≤ 3000) :
    (generer_tilfeldig_od_data rand areas).length
        = areas.length * (areas.length - 1) ∧
    (∀ e ∈ generer_tilfeldig_od_data rand areas,
      (300 ≤ e.2 ∧ e.2 ≤ 3000) ∧ e.1.1 ≠ e.1.2) ∧
    ((generer_tilfeldig_od_data rand areas).map Prod.fst).Nodup := by
  refine ⟨?_, ?_, generer_keys_nodup rand areas hn⟩
  · unfold generer_tilfeldig_od_data
    rw [List.length_flatMap]
    have hlen : ∀ fra ∈ areas,
        (List.length ∘ fun fra =>
            (areas.filter (fun til => fra ≠ til)).map
              (fun til => ((fra, til), rand fra til))) fra
          = areas.length - 1 := by
      intro fra hfra
      simp only [Function.comp, List.length_map]
      have hcong : areas.filter (fun til => fra ≠ til)
          = areas.filter (fun x => x ≠ fra) := by
        apply List.filter_congr
        intro x _
        simp [ne_comm]
      rw [hcong]
      exact length_filter_ne_of_nodup hn hfra
    rw [List.map_congr_left hlen, sum_map_const_nat]
  · intro e he
    obtain ⟨fra, til, _, _, hne, rfl⟩ := mem_generer.mp he
    exact ⟨hr fra til, hne⟩

theorem C2_flow_generator_witness :
    (generer_tilfeldig_od_data (fun _ _ => 300) ([0, 1, 2] : List Nat)).length
        = ([0, 1, 2] : List Nat).length * (([0, 1, 2] : List Nat).length - 1) ∧
    (∀ e ∈ generer_tilfeldig_od_data (fun _ _ => 300) ([0, 1, 2] : List Nat),
      (300 ≤ e.2 ∧ e.2 ≤ 3000) ∧ e.1.1 ≠ e.1.2) ∧
    ((generer_tilfeldig_od_data (fun _ _ => 300)
        ([0, 1, 2] : List Nat)).map Prod.fst).Nodup :=
  C2_flow_generator (fun _ _ => 300) [0, 1, 2] (by decide) (by decide)
    (fun _ _ => ⟨le_refl 300, by norm_num⟩)

/-- **C3.** For every edge list and selection `s`, the outbound list holds
exactly the edges with origin `s` (as destination-weight pairs), the
inbound list exactly those with destination `s` (as origin-weight pairs),
the totals are the sums of those lists, and `netto` is the integer
difference inbound − outbound (unclamped; it is negative on a concrete
edge set). -/
theorem C3_flow_aggregator {α : Type} [DecidableEq α]
    (od : List ((α × α) × Nat)) (s : α) :
    (∀ t a, (t, a) ∈ reiser_ut od s ↔ ((s, t), a) ∈ od) ∧
    (∀ f a, (f, a) ∈ reiser_inn od s ↔ ((f, s), a) ∈ od) ∧
    total_ut od s = ((od.filter (fun e => e.1.1 = s)).map Prod.snd).sum ∧
    total_inn od s = ((od.filter (fun e => e.1.2 = s)).map Prod.snd).sum ∧
    netto od s = (total_inn od s : ℤ) - (total_ut od s : ℤ) ∧
    ∃ (od2 : List ((Nat × Nat) × Nat)) (s2 : Nat), netto od2 s2 < 0 := by
  refine ⟨fun t a => mem_reiser_ut, fun f a => mem_reiser_inn, ?_, ?_, rfl,
    ⟨[((0, 1), 500)], 0, by decide⟩⟩
  · unfold total_ut reiser_ut
    rw [List.map_map]
    rfl
  · unfold total_inn reiser_inn
    rw [List.map_map]
    rfl

/-- **C4.** For every area list, selection in it, and random execution,
the Sankey node list starts with the selection, the name-to-index dict
maps the selection to `0`, and the node count is at most
`1 + min K (n - 1)` with `K = MAX_ANDRE_NODER = 10`. -/
theorem C4_sankey_nodes {α : Type} [DecidableEq α] (rand : α → α → Nat)
    (areas : List α) (valgt : α) (hv : valgt ∈ areas) :
    (alle_noder areas valgt
        (reiser_ut (generer_tilfeldig_od_data rand areas) valgt)
        (reiser_inn (generer_tilfeldig_od_data rand areas) valgt)).head?
      = some valgt ∧
    node_dict (alle_noder areas valgt
        (reiser_ut (generer_tilfeldig_od_data rand areas) valgt)
        (reiser_inn (generer_tilfeldig_od_data rand areas) valgt)) valgt
      = some 0 ∧
    (alle_noder areas valgt
        (reiser_ut (generer_tilfeldig_od_data rand areas) valgt)
        (reiser_inn (generer_tilfeldig_od_data rand areas) valgt)).length
      ≤ 1 + min MAX_ANDRE_NODER (areas.length - 1) := by
  refine ⟨rfl, ?_, ?_⟩
  · apply node_dict_cons_self
    intro a ha
    exact ne_of_mem_andre_of (andre_final_subset areas valgt _ _ ha)
  · show (valgt :: andre_final areas valgt _ _).length ≤ _
    rw [List.length_cons]
    have hb := length_andre_final_le areas valgt
      (reiser_ut (generer_tilfeldig_od_data rand areas) valgt)
      (reiser_inn (generer_tilfeldig_od_data rand areas) valgt) hv
      (fun h => reiser_ut_generer_ne_nil rand areas valgt hv (by omega))
    omega

theorem C4_sankey_nodes_witness :
    (alle_noder ([0, 1, 2] : List Nat) 1
        (reiser_ut (generer_tilfeldig_od_data (fun _ _ => 300) [0, 1, 2]) 1)
        (reiser_inn (generer_tilfeldig_od_data (fun _ _ => 300) [0, 1, 2]) 1)).head?
      = some 1 ∧
    node_dict (alle_noder ([0, 1, 2] : List Nat) 1
        (reiser_ut (generer_tilfeldig_od_data (fun _ _ => 300) [0, 1, 2]) 1)
        (reiser_inn (generer_tilfeldig_od_data (fun _ _ => 300) [0, 1, 2]) 1)) 1
      = some 0 ∧
    (alle_noder ([0, 1, 2] : List Nat) 1
        (reiser_ut (generer_tilfeldig_od_data (fun _ _ => 300) [0, 1, 2]) 1)
        (reiser_inn (generer_tilfeldig_od_data (fun _ _ => 300) [0, 1, 2]) 1)).length
      ≤ 1 + min MAX_ANDRE_NODER (([0, 1, 2] : List Nat).length - 1) :=
  C4_sankey_nodes (fun _ _ => 300) [0, 1, 2] 1 (by decide)

/-- **C5.** When at most `K = 10` other areas exist, no truncation occurs:
the Sankey node list is the selection followed by all other areas in
catalog order, and all `n - 1` of them appear. -/
theorem C5_no_truncation {α : Type} [DecidableEq α] (rand : α → α → Nat)
    (areas : List α) (valgt : α) (hn : areas.Nodup) (hv : valgt ∈ areas)
    (hK : areas.length - 1 ≤ MAX_ANDRE_NODER) :
    alle_noder areas valgt
        (reiser_ut (generer_tilfeldig_od_data rand areas) valgt)
        (reiser_inn (generer_tilfeldig_od_data rand areas) valgt)
      = valgt :: areas.filter (fun o => o ≠ valgt) ∧
    (areas.filter (fun o => o ≠ valgt)).length = areas.length - 1 ∧
    ∀ o ∈ areas, o ≠ valgt →
      o ∈ alle_noder areas valgt
        (reiser_ut (generer_tilfeldig_od_data rand areas) valgt)
        (reiser_inn (generer_tilfeldig_od_data rand areas) valgt) := by
  have hflen : (areas.filter (fun o => o ≠ valgt)).length
      = areas.length - 1 := length_filter_ne_of_nodup hn hv
  have haf : (andre_of areas valgt).length = areas.length - 1 := hflen
  have hsmall : ¬ MAX_ANDRE_NODER < (andre_of areas valgt).length := by
    omega
  have heq : alle_noder areas valgt
      (reiser_ut (generer_tilfeldig_od_data rand areas) valgt)
      (reiser_inn (generer_tilfeldig_od_data rand areas) valgt)
      = valgt :: areas.filter (fun o => o ≠ valgt) := by
    unfold alle_noder
    rw [andre_final_eq_of_small hsmall]
    rfl
  refine ⟨heq, hflen, ?_⟩
  intro o ho hne
  rw [heq]
  exact List.mem_cons_of_mem _ (List.mem_filter.mpr ⟨ho, by simpa using hne⟩)

theorem C5_no_truncation_witness :
    alle_noder ([0, 1, 2] : List Nat) 0
        (reiser_ut (generer_tilfeldig_od_data (fun _ _ => 300) [0, 1, 2]) 0)
        (reiser_inn (generer_tilfeldig_od_data (fun _ _ => 300) [0, 1, 2]) 0)
      = 0 :: ([0, 1, 2] : List Nat).filter (fun o => o ≠ 0) ∧
    (([0, 1, 2] : List Nat).filter (fun o => o ≠ 0)).length
      = ([0, 1, 2] : List Nat).length - 1 ∧
    ∀ o ∈ ([0, 1, 2] : List Nat), o ≠ 0 →
      o ∈ alle_noder ([0, 1, 2] : List Nat) 0
        (reiser_ut (generer_tilfeldig_od_data (fun _ _ => 300) [0, 1, 2]) 0)
        (reiser_inn (generer_tilfeldig_od_data (fun _ _ => 300) [0, 1, 2]) 0) :=
  C5_no_truncation (fun _ _ => 300) [0, 1, 2] 0 (by decide) (by decide)
    (by decide)

/-- **C6.** For every selection `s` over the generated edge set, outbound
total plus inbound total equals the total weight of the edges having `s`
as an endpoint, each counted once: the generator emits no self-loop, so
no edge lands in both lists. -/
theorem C6_no_double_count {α : Type} [DecidableEq α] (rand : α → α → Nat)
    (areas : List α) (s : α) :
    total_ut (generer_tilfeldig_od_data rand areas) s
        + total_inn (generer_tilfeldig_od_data rand areas) s
      = (((generer_tilfeldig_od_data rand areas).filter
          (fun e => e.1.1 = s ∨ e.1.2 = s)).map Prod.snd).sum ∧
    ∀ e ∈ generer_tilfeldig_od_data rand areas,
      ¬(e.1.1 = s ∧ e.1.2 = s) := by
  have hns : ∀ e ∈ generer_tilfeldig_od_data rand areas,
      ¬(e.1.1 = s ∧ e.1.2 = s) := by
    intro e he hc
    obtain ⟨fra, til, _, _, hne, rfl⟩ := mem_generer.mp he
    exact hne (hc.1.trans hc.2.symm)
  exact ⟨total_split _ s hns, hns⟩

/-- **C7.** For every selection, the exported outbound table has one row
per outbound edge (its name/trip-count columns are a permutation of the
outbound list), is sorted by trip count descending, and re-summing its
trip-count column reproduces the outbound total metric; symmetrically
for the inbound export. -/
theorem C7_csv_export {α : Type} [DecidableEq α]
    (od : List ((α × α) × Nat)) (s : α) :
    ((df_ut (reiser_ut od s)).map (fun r => (r.1, r.2.1))).Perm
        (reiser_ut od s) ∧
    List.Sorted rad_desc (df_ut (reiser_ut od s)) ∧
    ((df_ut (reiser_ut od s)).map (fun r => r.2.1)).sum = total_ut od s ∧
    ((df_inn (reiser_inn od s)).map (fun r => (r.1, r.2.1))).Perm
        (reiser_inn od s) ∧
    List.Sorted rad_desc (df_inn (reiser_inn od s)) ∧
    ((df_inn (reiser_inn od s)).map (fun r => r.2.1)).sum = total_inn od s := by
  rw [df_inn_eq_df_ut]
  exact ⟨df_ut_proj_perm _, df_ut_sorted _, df_ut_sum _,
    df_ut_proj_perm _, df_ut_sorted _, df_ut_sum _⟩

/-- **C8.** Startup is fatal in exactly the two specified ways: an
unreadable dataset stops the session with the read-failure message, and
a loaded dataset without the configured name attribute stops it with the
list of available attribute names; a stopped session always carries a
message, and the `stopped` state carries no catalog, so nothing further
is computed or rendered. -/
theorem C8_startup_fatal (e : String) (gdf : GeoDataFrame)
    (hmiss : NAVN_FELT ∉ gdf.columns) :
    startup (.error e) = .stopped
        ["Kunne ikke lese shapefil: " ++ e,
         "⚠️ Kunne ikke laste shapefil fra: " ++ SHAPEFIL_PATH,
         "Sjekk at stien er riktig og at filen eksisterer."] ∧
    startup (.ok gdf) = .stopped
        ["⚠️ Finner ikke feltet " ++ NAVN_FELT ++ " i shapefilen.",
         "Tilgjengelige felt: " ++ String.intercalate ", " gdf.columns] ∧
    (∀ r msgs, startup r = .stopped msgs → msgs ≠ []) := by
  have hcols : (if gdf.crs ≠ none ∧ gdf.crs ≠ some "EPSG:4326"
      then to_crs gdf "EPSG:4326" else gdf).columns = gdf.columns := by
    split <;> rfl
  refine ⟨rfl, ?_, ?_⟩
  · simp only [startup, les_shapefil, hcols]
    rw [if_neg hmiss]
    rfl
  · intro r msgs h
    match r with
    | .error e2 =>
        simp only [startup, les_shapefil] at h
        injection h with h2
        subst h2
        simp
    | .ok g =>
        simp only [startup, les_shapefil] at h
        by_cases hc : NAVN_FELT ∈
            (if g.crs ≠ none ∧ g.crs ≠ some "EPSG:4326"
             then to_crs g "EPSG:4326" else g).columns
        · rw [if_pos hc] at h
          cases h
        · rw [if_neg hc] at h
          injection h with h2
          subst h2
          simp

theorem C8_startup_fatal_witness :
    startup (.error "fil mangler") = .stopped
        ["Kunne ikke lese shapefil: " ++ "fil mangler",
         "⚠️ Kunne ikke laste shapefil fra: " ++ SHAPEFIL_PATH,
         "Sjekk at stien er riktig og at filen eksisterer."] ∧
    startup (.ok ⟨none, ["geometry"], []⟩) = .stopped
        ["⚠️ Finner ikke feltet " ++ NAVN_FELT ++ " i shapefilen.",
         "Tilgjengelige felt: " ++
           String.intercalate ", " (GeoDataFrame.mk none ["geometry"] []).columns] ∧
    (∀ r msgs, startup r = .stopped msgs → msgs ≠ []) :=
  C8_startup_fatal "fil mangler" ⟨none, ["geometry"], []⟩ (by decide)

/-- **C9.** Over the generated edge set, the sum over all areas of the
summary table's outbound totals equals the sum of all inbound totals
(both equal the total weight of all edges), so the table's net column
sums to zero; and each row satisfies `Totalt = ut + inn` and
`Netto = inn − ut`. -/
theorem C9_summary_table {α : Type} [DecidableEq α] (rand : α → α → Nat)
    (areas : List α) (hn : areas.Nodup) :
    ((df_stats (generer_tilfeldig_od_data rand areas) areas).map
        OmraadeStat.ut).sum
      = ((generer_tilfeldig_od_data rand areas).map Prod.snd).sum ∧
    ((df_stats (generer_tilfeldig_od_data rand areas) areas).map
        OmraadeStat.inn).sum
      = ((generer_tilfeldig_od_data rand areas).map Prod.snd).sum ∧
    ((df_stats (generer_tilfeldig_od_data rand areas) areas).map
        OmraadeStat.netto).sum = 0 ∧
    ∀ r ∈ df_stats (generer_tilfeldig_od_data rand areas) areas,
      r.totalt = r.ut + r.inn ∧ r.netto = (r.inn : ℤ) - (r.ut : ℤ) := by
  have hperm : (df_stats (generer_tilfeldig_od_data rand areas) areas).Perm
      (omraade_stats (generer_tilfeldig_od_data rand areas) areas) :=
    List.perm_insertionSort _ _
  have hut : ((omraade_stats (generer_tilfeldig_od_data rand areas) areas).map
      OmraadeStat.ut).sum
      = ((generer_tilfeldig_od_data rand areas).map Prod.snd).sum := by
    rw [omraade_stats_map_ut]
    exact sum_filter_key (fun e => e.1.1) _ areas hn generer_fst_mem
  have hinn : ((omraade_stats (generer_tilfeldig_od_data rand areas) areas).map
      OmraadeStat.inn).sum
      = ((generer_tilfeldig_od_data rand areas).map Prod.snd).sum := by
    rw [omraade_stats_map_inn]
    exact sum_filter_key (fun e => e.1.2) _ areas hn generer_snd_mem
  refine ⟨?_, ?_, ?_, ?_⟩
  · rw [(hperm.map OmraadeStat.ut).sum_eq]
    exact hut
  · rw [(hperm.map OmraadeStat.inn).sum_eq]
    exact hinn
  · rw [(hperm.map OmraadeStat.netto).sum_eq, omraade_stats_map_netto,
      sum_map_intsub]
    rw [← omraade_stats_map_ut, ← omraade_stats_map_inn] at *
    rw [hut, hinn]
    ring
  · intro r hr
    have hr2 : r ∈ omraade_stats (generer_tilfeldig_od_data rand areas) areas :=
      hperm.mem_iff.mp hr
    simp only [omraade_stats, List.mem_map] at hr2
    obtain ⟨o, _, rfl⟩ := hr2
    exact ⟨rfl, rfl⟩

theorem C9_summary_table_witness :
    ((df_stats (generer_tilfeldig_od_data (fun _ _ => 300) ([0, 1] : List Nat))
        [0, 1]).map OmraadeStat.ut).sum
      = ((generer_tilfeldig_od_data (fun _ _ => 300)
          ([0, 1] : List Nat)).map Prod.snd).sum ∧
    ((df_stats (generer_tilfeldig_od_data (fun _ _ => 300) ([0, 1] : List Nat))
        [0, 1]).map OmraadeStat.inn).sum
      = ((generer_tilfeldig_od_data (fun _ _ => 300)
          ([0, 1] : List Nat)).map Prod.snd).sum ∧
    ((df_stats (generer_tilfeldig_od_data (fun _ _ => 300) ([0, 1] : List Nat))
        [0, 1]).map OmraadeStat.netto).sum = 0 ∧
    ∀ r ∈ df_stats (generer_tilfeldig_od_data (fun _ _ => 300)
        ([0, 1] : List Nat)) [0, 1],
      r.totalt = r.ut + r.inn ∧ r.netto = (r.inn : ℤ) - (r.ut : ℤ) :=
  C9_summary_table (fun _ _ => 300) [0, 1] (by decide)

/-- **C10.** The selection invariant: the initial selection is the first
catalog element (hence a member), any trace of UI events — selectbox
choices from the catalog and clicks on map polygons drawn from the
shapefile's name values — keeps the selection inside the catalog, and a
click on the currently selected area leaves the selection unchanged. -/
theorem C10_selection_member (navn : List String) (hs : List (Hendelse String))
    (hne : navn ≠ [])
    (hg : ∀ ev ∈ hs, gyldig (omraader_liste_of navn) navn ev) :
    (omraader_liste_of navn).headI ∈ omraader_liste_of navn ∧
    kjoer (omraader_liste_of navn).headI hs ∈ omraader_liste_of navn ∧
    ∀ v : String, step v (.klikk v) = v := by
  have hlist : omraader_liste_of navn ≠ [] := by
    obtain ⟨x, hx⟩ := List.exists_mem_of_ne_nil navn hne
    exact List.ne_nil_of_mem (mem_omraader_liste_of.mpr hx)
  have hhead := headI_mem_of_ne_nil hlist
  refine ⟨hhead, ?_, ?_⟩
  · exact kjoer_mem (omraader_liste_of navn) navn
      (fun x hx => mem_omraader_liste_of.mpr hx) _ hhead hs hg
  · intro v
    simp [step, klikk_oppdater]

theorem C10_selection_member_witness :
    (omraader_liste_of ["a"]).headI ∈ omraader_liste_of ["a"] ∧
    kjoer (omraader_liste_of ["a"]).headI
        [Hendelse.velg "a", Hendelse.klikk "a"] ∈ omraader_liste_of ["a"] ∧
    ∀ v : String, step v (.klikk v) = v :=
  C10_selection_member ["a"] [Hendelse.velg "a", Hendelse.klikk "a"]
    (by decide)
    (by
      intro ev hev
      rcases List.mem_cons.mp hev with rfl | hev2
      · exact (by decide : ("a" : String) ∈ omraader_liste_of ["a"])
      · rcases List.mem_cons.mp hev2 with rfl | h3
        · exact (by decide : ("a" : String) ∈ (["a"] : List String))
        · cases h3)

end Mobilitet
